import Mathlib

/-!
Verification of the webhook ingestion and verification gateway of the
nextjs-forge template (Convex HTTP actions in `convex/http.ts`, user sync in
`convex/users.ts`, subscription tracking in `convex/subscriptions.ts`).

The TypeScript source is shallowly embedded: JS strings are modelled as Lean
`String` (one entry per Unicode scalar value; the sources only ever handle
such data), byte buffers as `List Nat` with each entry kept below 256 by
construction, thrown JS exceptions as `Except.error`, and the Convex document
store as explicit record lists threaded through each handler.  Two external
primitives are given executable models faithful to their specified behaviour:
`crypto.subtle` HMAC-SHA-256 is implemented in full (FIPS 180-4, RFC 2104,
validated against published test vectors), and `JSON.parse` is implemented
for the JSON grammar without `\u` string escapes (inputs outside that
fragment are modelled as parse failures, which only ever weakens - never
falsifies - the hypotheses of the theorems below).

A load-bearing piece of store semantics: Convex `db.patch` REMOVES a field
that is explicitly set to `undefined`.  The subscription handlers pass their
optional arguments straight into `db.patch`, so an absent optional argument
clears the stored field; the embedding therefore overwrites `Option`-valued
fields unconditionally on patch.
-/

/- ===================== Byte-level primitives ===================== -/

/-- UTF-8 encoding of a string, as produced by `TextEncoder.encode`. -/
def utf8Encode (s : String) : List Nat :=
  s.data.foldr (fun c acc =>
    let n := c.toNat
    if n < 0x80 then n :: acc
    else if n < 0x800 then
      (0xC0 ||| (n >>> 6)) :: (0x80 ||| (n &&& 0x3F)) :: acc
    else if n < 0x10000 then
      (0xE0 ||| (n >>> 12)) :: (0x80 ||| ((n >>> 6) &&& 0x3F)) :: (0x80 ||| (n &&& 0x3F)) :: acc
    else
      (0xF0 ||| (n >>> 18)) :: (0x80 ||| ((n >>> 12) &&& 0x3F)) ::
        (0x80 ||| ((n >>> 6) &&& 0x3F)) :: (0x80 ||| (n &&& 0x3F)) :: acc) []

/-- Right rotation of a 32-bit word. -/
def rotr32 (n x : Nat) : Nat :=
  ((x >>> n) ||| (x <<< (32 - n))) &&& 0xFFFFFFFF

def shaCh (x y z : Nat) : Nat := (x &&& y) ^^^ ((x ^^^ 0xFFFFFFFF) &&& z)

def shaMaj (x y z : Nat) : Nat := (x &&& y) ^^^ (x &&& z) ^^^ (y &&& z)

def shaBigSigma0 (x : Nat) : Nat := rotr32 2 x ^^^ rotr32 13 x ^^^ rotr32 22 x

def shaBigSigma1 (x : Nat) : Nat := rotr32 6 x ^^^ rotr32 11 x ^^^ rotr32 25 x

def shaSmallSigma0 (x : Nat) : Nat := rotr32 7 x ^^^ rotr32 18 x ^^^ ((x >>> 3) &&& 0xFFFFFFFF)

def shaSmallSigma1 (x : Nat) : Nat := rotr32 17 x ^^^ rotr32 19 x ^^^ ((x >>> 10) &&& 0xFFFFFFFF)

/-- The 64 SHA-256 round constants (FIPS 180-4 section 4.2.2, here written
in decimal: 0x428a2f98 = 1116352408 and so on, in the standard order). -/
def shaK : List Nat :=
  [1116352408, 1899447441, 3049323471, 3921009573, 961987163, 1508970993,
   2453635748, 2870763221, 3624381080, 310598401, 607225278, 1426881987,
   1925078388, 2162078206, 2614888103, 3248222580, 3835390401, 4022224774,
   264347078, 604807628, 770255983, 1249150122, 1555081692, 1996064986,
   2554220882, 2821834349, 2952996808, 3210313671, 3336571891, 3584528711,
   113926993, 338241895, 666307205, 773529912, 1294757372, 1396182291,
   1695183700, 1986661051, 2177026350, 2456956037, 2730485921, 2820302411,
   3259730800, 3345764771, 3516065817, 3600352804, 4094571909, 275423344,
   430227734, 506948616, 659060556, 883997877, 958139571, 1322822218,
   1537002063, 1747873779, 1955562222, 2024104815, 2227730452, 2361852424,
   2428436474, 2756734187, 3204031479, 3329325298]

structure ShaState where
  a : Nat
  b : Nat
  c : Nat
  d : Nat
  e : Nat
  f : Nat
  g : Nat
  h : Nat

/-- The SHA-256 initial hash values (FIPS 180-4 section 5.3.3, in decimal:
0x6a09e667 = 1779033703 and so on). -/
def shaInit : ShaState :=
  ⟨1779033703, 3144134277, 1013904242, 2773480762,
   1359893119, 2600822924, 528734635, 1541459225⟩

/-- SHA-256 message padding: append `0x80`, zeros, and the 64-bit big-endian
bit length, reaching a multiple of 64 bytes. -/
def shaPad (msg : List Nat) : List Nat :=
  let len := msg.length
  let k := (56 + 64 - ((len + 1) % 64)) % 64
  let bitLen := len * 8
  msg ++ [0x80] ++ List.replicate k 0 ++
    [(bitLen >>> 56) &&& 0xFF, (bitLen >>> 48) &&& 0xFF, (bitLen >>> 40) &&& 0xFF,
     (bitLen >>> 32) &&& 0xFF, (bitLen >>> 24) &&& 0xFF, (bitLen >>> 16) &&& 0xFF,
     (bitLen >>> 8) &&& 0xFF, bitLen &&& 0xFF]

/-- The 16 big-endian 32-bit words of a 64-byte block. -/
def blockWords (block : List Nat) : List Nat :=
  (List.range 16).map (fun i =>
    (block.getD (4 * i) 0) <<< 24 ||| (block.getD (4 * i + 1) 0) <<< 16 |||
    (block.getD (4 * i + 2) 0) <<< 8 ||| block.getD (4 * i + 3) 0)

/-- Extend the 16 block words to the 64-word message schedule. -/
def shaSchedule (ws : List Nat) : List Nat :=
  (List.range 48).foldl (fun acc _ =>
    let n := acc.length
    let w := (acc.getD (n - 16) 0 + shaSmallSigma0 (acc.getD (n - 15) 0) +
              acc.getD (n - 7) 0 + shaSmallSigma1 (acc.getD (n - 2) 0)) &&& 0xFFFFFFFF
    acc ++ [w]) ws

def shaRound (st : ShaState) (kw : Nat × Nat) : ShaState :=
  let t1 := (st.h + shaBigSigma1 st.e + shaCh st.e st.f st.g + kw.1 + kw.2) &&& 0xFFFFFFFF
  let t2 := (shaBigSigma0 st.a + shaMaj st.a st.b st.c) &&& 0xFFFFFFFF
  ⟨(t1 + t2) &&& 0xFFFFFFFF, st.a, st.b, st.c, (st.d + t1) &&& 0xFFFFFFFF, st.e, st.f, st.g⟩

def shaCompress (st : ShaState) (block : List Nat) : ShaState :=
  let w := shaSchedule (blockWords block)
  let r := (shaK.zip w).foldl shaRound st
  ⟨(st.a + r.a) &&& 0xFFFFFFFF, (st.b + r.b) &&& 0xFFFFFFFF, (st.c + r.c) &&& 0xFFFFFFFF,
   (st.d + r.d) &&& 0xFFFFFFFF, (st.e + r.e) &&& 0xFFFFFFFF, (st.f + r.f) &&& 0xFFFFFFFF,
   (st.g + r.g) &&& 0xFFFFFFFF, (st.h + r.h) &&& 0xFFFFFFFF⟩

def word32Bytes (w : Nat) : List Nat :=
  [(w >>> 24) &&& 0xFF, (w >>> 16) &&& 0xFF, (w >>> 8) &&& 0xFF, w &&& 0xFF]

def shaDigest (st : ShaState) : List Nat :=
  word32Bytes st.a ++ word32Bytes st.b ++ word32Bytes st.c ++ word32Bytes st.d ++
  word32Bytes st.e ++ word32Bytes st.f ++ word32Bytes st.g ++ word32Bytes st.h

/-- SHA-256 of a byte message (FIPS 180-4); validated against the standard
test vectors for `""`, `"abc"` and the RFC 4231 HMAC suite. -/
def sha256 (msg : List Nat) : List Nat :=
  let padded := shaPad msg
  let nBlocks := padded.length / 64
  shaDigest ((List.range nBlocks).foldl
    (fun st i => shaCompress st ((padded.drop (64 * i)).take 64)) shaInit)

/-- The pure RFC 2104 HMAC-SHA-256 of the UTF-8 bytes of `message` under a
raw byte key: the mathematical function the spec formulas speak of.  (The
WebCrypto entry point is `subtleHmacSign` below, which adds the `importKey`
error path.) -/
def hmacSha256 (key : List Nat) (message : String) : List Nat :=
  let k0 := if key.length > 64 then sha256 key else key
  let kPadded := k0 ++ List.replicate (64 - k0.length) 0
  let inner := sha256 ((kPadded.map (fun b => b ^^^ 0x36)) ++ utf8Encode message)
  sha256 ((kPadded.map (fun b => b ^^^ 0x5c)) ++ inner)

/-- The model of `crypto.subtle.importKey("raw", key, {name: "HMAC", hash:
"SHA-256"}, ...)` followed by `crypto.subtle.sign`.  The WebCrypto HMAC
import-key algorithm REJECTS a zero-length key ("If length is zero then
throw a DataError"), so an empty key is a throw (`none`); any non-empty key
signs to the RFC 2104 value. -/
def subtleHmacSign (key : List Nat) (message : String) : Option (List Nat) :=
  match key with
  | [] => none
  | _ => some (hmacSha256 key message)

/- ===================== Hex and base64 codecs ===================== -/

def hexDigit (n : Nat) : Char :=
  "0123456789abcdef".data.getD n '0'

/-- JS `b.toString(16).padStart(2, "0")` for a byte value. -/
def byteToHex (b : Nat) : List Char :=
  if b < 16 then ['0', hexDigit b] else [hexDigit (b / 16), hexDigit (b % 16)]

/-- Source `bufToHex`: lowercase two-digit hex encoding of each byte. -/
def bufToHex (buf : List Nat) : String :=
  String.mk (buf.foldr (fun b acc => byteToHex b ++ acc) [])

def b64Alphabet : List Char :=
  "ABCDEFGHIJKLMNOPQRSTUVWXYZabcdefghijklmnopqrstuvwxyz0123456789+/".data

def b64Char (n : Nat) : Char := b64Alphabet.getD n 'A'

/-- Standard base64 encoding of a byte list, with `=` padding. -/
def b64EncodeGroups (bs : List Nat) : List Char :=
  match bs with
  | b0 :: b1 :: b2 :: rest =>
      let n := b0 <<< 16 ||| b1 <<< 8 ||| b2
      b64Char (n >>> 18) :: b64Char ((n >>> 12) &&& 63) :: b64Char ((n >>> 6) &&& 63) ::
        b64Char (n &&& 63) :: b64EncodeGroups rest
  | [b0, b1] =>
      let n := b0 <<< 16 ||| b1 <<< 8
      [b64Char (n >>> 18), b64Char ((n >>> 12) &&& 63), b64Char ((n >>> 6) &&& 63), '=']
  | [b0] =>
      let n := b0 <<< 16
      [b64Char (n >>> 18), b64Char ((n >>> 12) &&& 63), '=', '=']
  | [] => []

/-- Source `bufToBase64`: `btoa(String.fromCharCode(...bytes))`. -/
def bufToBase64 (buf : List Nat) : String := String.mk (b64EncodeGroups buf)

/-- The ASCII whitespace removed by the forgiving base64 decode used by `atob`. -/
def isB64Whitespace (c : Char) : Bool :=
  c == ' ' || c == '\t' || c == '\n' || c == '\x0c' || c == '\r'

def b64IndexGo : List Char → Nat → Char → Option Nat
  | [], _, _ => none
  | a :: as, i, c => if a == c then some i else b64IndexGo as (i + 1) c

/-- Position of a character in the base64 alphabet. -/
def b64Index (c : Char) : Option Nat :=
  b64IndexGo b64Alphabet 0 c

/-- Strip one or two trailing `=` characters. -/
def dropTrailingEq (cs : List Char) : List Char :=
  match cs.reverse with
  | '=' :: '=' :: rest => rest.reverse
  | '=' :: rest => rest.reverse
  | _ => cs

/-- Turn a stream of 6-bit values into bytes, discarding leftover bits. -/
def sixBitsToBytes : List Nat → Nat → Nat → List Nat
  | [], _, _ => []
  | v :: vs, acc, bits =>
      let acc2 := (acc <<< 6) ||| v
      let bits2 := bits + 6
      if bits2 ≥ 8 then
        ((acc2 >>> (bits2 - 8)) &&& 0xFF) :: sixBitsToBytes vs (acc2 &&& ((1 <<< (bits2 - 8)) - 1)) (bits2 - 8)
      else sixBitsToBytes vs acc2 bits2

/-- Step 1 of the forgiving-base64 decode: remove ASCII whitespace. -/
def b64Filtered (str : String) : List Char :=
  str.data.filter (fun c => !(isB64Whitespace c))

/-- Step 2: when the length is a multiple of 4, strip up to two trailing
`=` characters. -/
def b64Stripped (str : String) : List Char :=
  if (b64Filtered str).length % 4 == 0 then dropTrailingEq (b64Filtered str)
  else b64Filtered str

/-- Source `base64Decode`: `atob` (the WHATWG forgiving-base64 decode; a
thrown `InvalidCharacterError` is `none`) followed by `charCodeAt` on each
character of the resulting binary string. -/
def base64Decode (str : String) : Option (List Nat) :=
  if (b64Stripped str).length % 4 == 1 then none
  else if (b64Stripped str).any (fun c => (b64Index c).isNone) then none
  else some (sixBitsToBytes ((b64Stripped str).map (fun c => (b64Index c).getD 0)) 0 0)

/- ===================== JS string operations ===================== -/

/-- JS `String.prototype.split` with a single-character separator. -/
def splitChars (sep : Char) (l : List Char) : List (List Char) :=
  l.foldr (fun c acc =>
    if c == sep then [] :: acc
    else
      match acc with
      | h :: t => (c :: h) :: t
      | [] => [[c]]) [[]]

def jsSplit (s : String) (sep : Char) : List String :=
  (splitChars sep s.data).map String.mk

def listStartsWith : List Char → List Char → Bool
  | [], _ => true
  | _ :: _, [] => false
  | p :: ps, c :: cs => p == c && listStartsWith ps cs

/-- JS `s.startsWith(pat)`. -/
def jsStartsWith (s pat : String) : Bool := listStartsWith pat.data s.data

/-- JS `s.slice(n)` for a non-negative `n`. -/
def jsDropChars (s : String) (n : Nat) : String := String.mk (s.data.drop n)

/-- Replace the first occurrence of `pat` (here always non-empty) by `rep`. -/
def replaceFirstChars (pat rep : List Char) : List Char → List Char
  | [] => []
  | c :: cs =>
      if listStartsWith pat (c :: cs) then rep ++ (c :: cs).drop pat.length
      else c :: replaceFirstChars pat rep cs

/-- JS `s.replace(pat, rep)` with a string pattern: replaces only the FIRST
occurrence of `pat`, wherever it is. -/
def jsReplaceFirst (s pat rep : String) : String :=
  String.mk (replaceFirstChars pat.data rep.data s.data)

/-- The accumulator of the `timingSafeEqual` loop: bitwise OR of the XORs of
corresponding character codes. -/
def xorOrAccum (a b : String) : Nat :=
  (a.data.zip b.data).foldl (fun r p => r ||| (p.1.toNat ^^^ p.2.toNat)) 0

/-- Source `timingSafeEqual`: length check, then the OR-of-XORs loop. -/
def timingSafeEqual (a b : String) : Bool :=
  if a.data.length != b.data.length then false
  else xorOrAccum a b == 0

/- ===================== Signature verifiers ===================== -/

/-- Source `verifySvixSignature`.  `none` models a thrown exception: the
`InvalidCharacterError` from `atob` when the post-replace secret is not
base64, or the `DataError` from `importKey` when it decodes to zero bytes. -/
def verifySvixSignature (secret svixId svixTimestamp svixSignature body : String) : Option Bool :=
  match base64Decode (jsReplaceFirst secret "whsec_" "") with
  | none => none
  | some secretBytes =>
      match subtleHmacSign secretBytes (svixId ++ "." ++ svixTimestamp ++ "." ++ body) with
      | none => none
      | some sig =>
          let expected := bufToBase64 sig
          let signatures := jsSplit svixSignature ' '
          some (signatures.any (fun versionedSig =>
            match (jsSplit versionedSig ',').get? 1 with
            | some sigValue => sigValue != "" && timingSafeEqual expected sigValue
            | none => false))

/-- Source `verifyStripeSignature`.  The `!(timestamp && v1Signature)` guard
rejects a missing field and also an EMPTY extracted value (JS truthiness)
BEFORE any crypto runs; past the guard, `importKey` throws (`none`) on a
zero-length key, i.e. on the empty secret. -/
def verifyStripeSignature (secret stripeSignature body : String) : Option Bool :=
  let parts := jsSplit stripeSignature ','
  let timestamp := (parts.find? (fun p => jsStartsWith p "t=")).map (fun p => jsDropChars p 2)
  let v1Signature := (parts.find? (fun p => jsStartsWith p "v1=")).map (fun p => jsDropChars p 3)
  match timestamp, v1Signature with
  | some ts, some v1 =>
      if ts == "" || v1 == "" then some false
      else
        match subtleHmacSign (utf8Encode secret) (ts ++ "." ++ body) with
        | none => none
        | some sig => some (timingSafeEqual (bufToHex sig) v1)
  | _, _ => some false

/- ===================== JSON values and parsing ===================== -/

inductive JsonValue where
  | null
  | bool (b : Bool)
  | num (raw : String)
  | str (s : String)
  | arr (elems : List JsonValue)
  | obj (fields : List (String × JsonValue))

def jsonLBrace : Char := Char.ofNat 123

def jsonRBrace : Char := Char.ofNat 125

def isJsonWs (c : Char) : Bool :=
  c == ' ' || c == '\t' || c == '\n' || c == '\r'

def skipWs (l : List Char) : List Char := l.dropWhile isJsonWs

/-- The single-character JSON string escape table (escape letter paired with
the character it denotes); `\u` is outside the modelled fragment. -/
def jsonEscapeTable : List (Char × Char) :=
  [('"', '"'), ('\\', '\\'), ('/', '/'), ('b', Char.ofNat 8),
   ('f', Char.ofNat 12), ('n', Char.ofNat 10), ('r', Char.ofNat 13), ('t', Char.ofNat 9)]

def unescapeChar (e : Char) : Option Char :=
  (jsonEscapeTable.find? (fun p => p.1 == e)).map (fun p => p.2)

/-- Characters of a JSON string literal after the opening quote. -/
def parseStrChars : List Char → Option (List Char × List Char)
  | [] => none
  | '"' :: rest => some ([], rest)
  | '\\' :: e :: rest =>
      (unescapeChar e).bind (fun c =>
        (parseStrChars rest).map (fun p => (c :: p.1, p.2)))
  | c :: rest =>
      if c.toNat < 0x20 then none
      else (parseStrChars rest).map (fun p => (c :: p.1, p.2))

def spanDigits (l : List Char) : List Char × List Char :=
  (l.takeWhile Char.isDigit, l.dropWhile Char.isDigit)

/-- Fraction and exponent of a JSON number literal. -/
def parseNumberTail (intPart : List Char) (l : List Char) : Option (List Char × List Char) :=
  let (frac, l2) := match l with
    | '.' :: rest =>
        match spanDigits rest with
        | ([], _) => ([], none)
        | (ds, rest2) => ('.' :: ds, some rest2)
    | _ => ([], some l)
  match l2 with
  | none => none
  | some l2 =>
      match l2 with
      | c :: rest =>
          if c == 'e' || c == 'E' then
            let (sgn, rest2) := match rest with
              | '+' :: r => (['+'], r)
              | '-' :: r => (['-'], r)
              | _ => ([], rest)
            match spanDigits rest2 with
            | ([], _) => none
            | (ds, rest3) => some (intPart ++ frac ++ [c] ++ sgn ++ ds, rest3)
          else some (intPart ++ frac, l2)
      | [] => some (intPart ++ frac, l2)

/-- Lex a JSON number (`-?(0|[1-9][0-9]*)(\.[0-9]+)?([eE][+-]?[0-9]+)?`),
returning its raw text. -/
def parseNumberLit (l : List Char) : Option (List Char × List Char) :=
  let (sign, l1) := match l with
    | '-' :: rest => (['-'], rest)
    | _ => ([], l)
  match l1 with
  | '0' :: rest => parseNumberTail (sign ++ ['0']) rest
  | c :: _ =>
      if c.isDigit then
        let (ds, rest) := spanDigits l1
        parseNumberTail (sign ++ ds) rest
      else none
  | [] => none

mutual

def parseValueF : Nat → List Char → Option (JsonValue × List Char)
  | 0, _ => none
  | fuel + 1, l =>
      match skipWs l with
      | 'n' :: 'u' :: 'l' :: 'l' :: rest => some (.null, rest)
      | 't' :: 'r' :: 'u' :: 'e' :: rest => some (.bool true, rest)
      | 'f' :: 'a' :: 'l' :: 's' :: 'e' :: rest => some (.bool false, rest)
      | '"' :: rest => (parseStrChars rest).map (fun p => (.str (String.mk p.1), p.2))
      | c :: rest =>
          if c == jsonLBrace then
            match skipWs rest with
            | c2 :: rest2 =>
                if c2 == jsonRBrace then some (.obj [], rest2)
                else (parseFieldsF fuel (c2 :: rest2)).map (fun p => (.obj p.1, p.2))
            | [] => none
          else if c == '[' then
            match skipWs rest with
            | ']' :: rest2 => some (.arr [], rest2)
            | rest2 => (parseElemsF fuel rest2).map (fun p => (.arr p.1, p.2))
          else if c == '-' || c.isDigit then
            (parseNumberLit (c :: rest)).map (fun p => (.num (String.mk p.1), p.2))
          else none
      | [] => none

def parseElemsF : Nat → List Char → Option (List JsonValue × List Char)
  | 0, _ => none
  | fuel + 1, l =>
      match parseValueF fuel l with
      | none => none
      | some (v, rest) =>
          match skipWs rest with
          | ',' :: rest2 => (parseElemsF fuel rest2).map (fun p => (v :: p.1, p.2))
          | ']' :: rest2 => some ([v], rest2)
          | _ => none

def parseFieldsF : Nat → List Char → Option (List (String × JsonValue) × List Char)
  | 0, _ => none
  | fuel + 1, l =>
      match skipWs l with
      | '"' :: rest =>
          match parseStrChars rest with
          | none => none
          | some (key, rest1) =>
              match skipWs rest1 with
              | ':' :: rest2 =>
                  match parseValueF fuel rest2 with
                  | none => none
                  | some (v, rest3) =>
                      match skipWs rest3 with
                      | ',' :: rest4 =>
                          (parseFieldsF fuel rest4).map (fun p => ((String.mk key, v) :: p.1, p.2))
                      | c :: rest4 =>
                          if c == jsonRBrace then some ([(String.mk key, v)], rest4) else none
                      | [] => none
              | _ => none
      | _ => none

end

/-- Model of `JSON.parse` on the JSON grammar without `\u` escapes.  Inputs
outside the modelled fragment yield `none`; every theorem below only ever
assumes `parseJson body = some v`, so this restriction weakens hypotheses and
never asserts anything about unmodelled inputs. -/
def parseJson (s : String) : Option JsonValue :=
  match parseValueF (2 * s.data.length + 2) s.data with
  | some (v, rest) => if (skipWs rest).isEmpty then some v else none
  | none => none

/-- JS property lookup on a parsed object: with duplicate keys, `JSON.parse`
keeps the LAST occurrence. -/
def jsGet (key : String) (fields : List (String × JsonValue)) : Option JsonValue :=
  (fields.reverse.find? (fun p => p.1 == key)).map (fun p => p.2)

/-- True when the mantissa of a JSON number literal is zero. -/
def jsonNumIsZero (raw : String) : Bool :=
  ((raw.data.takeWhile (fun c => !(c == 'e' || c == 'E'))).filter Char.isDigit).all (fun c => c == '0')

/-- JS truthiness of a parsed JSON value. -/
def jsTruthy : JsonValue → Bool
  | .null => false
  | .bool b => b
  | .num raw => !(jsonNumIsZero raw)
  | .str s => !(s == "")
  | .arr _ => true
  | .obj _ => true

/- ===================== Document store model ===================== -/

structure UserRow where
  id : Nat
  name : String
  email : Option String
  imageUrl : Option String
  externalId : String
deriving DecidableEq

structure SubRow where
  id : Nat
  userId : Nat
  stripeCustomerId : String
  stripeSubscriptionId : Option String
  status : String
  plan : Option String
deriving DecidableEq

/-- The persistent store: the `users` and `subscriptions` tables in creation
order (the order `collect`, `first` and index scans with an equal key see),
plus a counter supplying fresh document ids. -/
structure Db where
  users : List UserRow
  subs : List SubRow
  nextId : Nat
deriving DecidableEq

/- ===================== users.ts mutations ===================== -/

structure EmailEntry where
  email_address : String
deriving DecidableEq

/-- The `ClerkUserData` shape read by `upsertFromClerk`; `none` covers both
`null` and an absent field (the code treats them identically). -/
structure ClerkUserData where
  id : String
  first_name : Option String
  last_name : Option String
  email_addresses : Option (List EmailEntry)
  image_url : Option String
deriving DecidableEq

/-- JS `[first_name, last_name].filter(Boolean)`: drops `null`/`undefined`
and the empty string (all falsy). -/
def jsFilterTruthy (l : List (Option String)) : List String :=
  l.filterMap (fun o =>
    match o with
    | some s => if s == "" then none else some s
    | none => none)

/-- JS `Array.prototype.join(" ")`. -/
def joinSpace : List String → String
  | [] => ""
  | [s] => s
  | s :: rest => s ++ " " ++ joinSpace rest

/-- Source lines 17-19 of `users.ts`:
`[event.first_name, event.last_name].filter(Boolean).join(" ") || "Unknown"`. -/
def computeName (first last : Option String) : String :=
  let joined := joinSpace (jsFilterTruthy [first, last])
  if joined == "" then "Unknown" else joined

/-- `event.email_addresses?.[0]?.email_address`. -/
def emailOf (d : ClerkUserData) : Option String :=
  match d.email_addresses with
  | some (e :: _) => some e.email_address
  | _ => none

/-- Convex `query(...).withIndex(...).unique()`: `none` for no match, the row
for exactly one, a thrown error for several. -/
def uniqueByExternalId (rows : List UserRow) (externalId : String) : Except String (Option UserRow) :=
  match rows.filter (fun u => u.externalId == externalId) with
  | [] => Except.ok none
  | [u] => Except.ok (some u)
  | _ => Except.error "unique: query returned more than one document"

/-- Source `upsertFromClerk`.  The pair is (returned id or thrown error,
resulting store); a throw happens before any write, so the store comes back
unchanged on the error path.  `db.patch` with the computed `email`/`imageUrl`
set to `undefined` REMOVES those fields, hence the unconditional overwrite. -/
def upsertFromClerk (event : ClerkUserData) (db : Db) : Except String Nat × Db :=
  let name := computeName event.first_name event.last_name
  match uniqueByExternalId db.users event.id with
  | Except.error e => (Except.error e, db)
  | Except.ok (some existing) =>
      (Except.ok existing.id,
       { db with users := db.users.map (fun u =>
           if u.id == existing.id then
             { u with name := name, email := emailOf event, imageUrl := event.image_url }
           else u) })
  | Except.ok none =>
      (Except.ok db.nextId,
       { db with
           users := db.users ++ [⟨db.nextId, name, emailOf event, event.image_url, event.id⟩],
           nextId := db.nextId + 1 })

/-- Source `deleteFromClerk`: look up by `externalId`, delete when found. -/
def deleteFromClerk (clerkId : String) (db : Db) : Except String Unit × Db :=
  match uniqueByExternalId db.users clerkId with
  | Except.error e => (Except.error e, db)
  | Except.ok (some user) =>
      (Except.ok (), { db with users := db.users.filter (fun u => !(u.id == user.id)) })
  | Except.ok none => (Except.ok (), db)

/- ===================== subscriptions.ts mutations ===================== -/

/-- Source `upsertSubscription`.  On the patch path the optional arguments
are passed to `db.patch` even when absent, and Convex removes fields patched
to `undefined`: the stored `stripeSubscriptionId` and `plan` are overwritten
by the arguments unconditionally.  With no matching row the handler falls
back to the FIRST user returned by `collect()` and throws when there is
none; the throw precedes any write. -/
def upsertSubscription (stripeCustomerId : String) (stripeSubscriptionId : Option String)
    (status : String) (plan : Option String) (db : Db) : Except String Nat × Db :=
  match db.subs.find? (fun r => r.stripeCustomerId == stripeCustomerId) with
  | some existing =>
      (Except.ok existing.id,
       { db with subs := db.subs.map (fun r =>
           if r.id == existing.id then
             { r with stripeSubscriptionId := stripeSubscriptionId, status := status, plan := plan }
           else r) })
  | none =>
      match db.users with
      | [] =>
          (Except.error ("No user found to link subscription for customer " ++ stripeCustomerId), db)
      | user :: _ =>
          (Except.ok db.nextId,
           { db with
               subs := db.subs ++
                 [⟨db.nextId, user.id, stripeCustomerId, stripeSubscriptionId, status, plan⟩],
               nextId := db.nextId + 1 })

/-- Source `cancelSubscription`: patch `status` to `"canceled"` when a row
matches, no-op otherwise. -/
def cancelSubscription (stripeCustomerId : String) (db : Db) : Except String Unit × Db :=
  match db.subs.find? (fun r => r.stripeCustomerId == stripeCustomerId) with
  | some subscription =>
      (Except.ok (), { db with subs := db.subs.map (fun r =>
         if r.id == subscription.id then { r with status := "canceled" } else r) })
  | none => (Except.ok (), db)

/- ===================== HTTP endpoint models ===================== -/

/-- An HTTP response: status code and body text. -/
abbrev HttpResponse := Nat × String

/-- `JSON.stringify({ success: true })`. -/
def jsonSuccessBody : String := "\x7b\"success\":true\x7d"

/-- A field that the handler passes through as `string | null | undefined`.
Fields of other runtime types (which JS would coerce and the Convex schema
validator would subsequently reject) are modelled as errors and are not
relied on by any theorem. -/
def optStringField : Option JsonValue → Except String (Option String)
  | none => Except.ok none
  | some JsonValue.null => Except.ok none
  | some (JsonValue.str s) => Except.ok (some s)
  | some _ => Except.error "model: unexpected field type"

/-- `email_addresses?.[0]?.email_address`, kept as at most one entry (only
index 0 is ever read). -/
def firstEmailEntry : Option JsonValue → Except String (Option (List EmailEntry))
  | none => Except.ok none
  | some JsonValue.null => Except.ok none
  | some (JsonValue.arr []) => Except.ok (some [])
  | some (JsonValue.arr (x :: _)) =>
      match x with
      | JsonValue.obj es =>
          match jsGet "email_address" es with
          | some (JsonValue.str s) => Except.ok (some [⟨s⟩])
          | none => Except.ok none
          | some _ => Except.error "model: unexpected email_address type"
      | _ => Except.ok none
  | some _ => Except.ok none

/-- The cast `event.data as ClerkUserData` followed by the field reads the
mutation performs. -/
def toClerkUserData (fields : List (String × JsonValue)) : Except String ClerkUserData :=
  match jsGet "id" fields with
  | some (JsonValue.str i) =>
      match optStringField (jsGet "first_name" fields) with
      | Except.error e => Except.error e
      | Except.ok fn =>
          match optStringField (jsGet "last_name" fields) with
          | Except.error e => Except.error e
          | Except.ok ln =>
              match firstEmailEntry (jsGet "email_addresses" fields) with
              | Except.error e => Except.error e
              | Except.ok em =>
                  match optStringField (jsGet "image_url" fields) with
                  | Except.error e => Except.error e
                  | Except.ok im => Except.ok ⟨i, fn, ln, em, im⟩
  | _ => Except.error "model: user id must be a string"

/-- The `switch (event.type)` dispatch of the `/clerk-users-webhook` handler
(source lines 249-271), applied to the value `JSON.parse` produced.  Reading
`.type` from `null` throws; reading it from any other non-object yields
`undefined` and falls to the default branch. -/
def dispatchClerk (v : JsonValue) (db : Db) : Except String Db :=
  match v with
  | JsonValue.null => Except.error "TypeError: cannot read properties of null"
  | JsonValue.obj fields =>
      match jsGet "type" fields with
      | some (JsonValue.str t) =>
          if t == "user.created" || t == "user.updated" then
            match jsGet "data" fields with
            | none => Except.error "TypeError: event data is undefined"
            | some JsonValue.null => Except.error "TypeError: event data is null"
            | some (JsonValue.obj dataFields) =>
                match toClerkUserData dataFields with
                | Except.error e => Except.error e
                | Except.ok d =>
                    match upsertFromClerk d db with
                    | (Except.ok _, db2) => Except.ok db2
                    | (Except.error e, _) => Except.error e
            | some _ => Except.error "model: non-object event data"
          else if t == "user.deleted" then
            match jsGet "data" fields with
            | none => Except.error "TypeError: event data is undefined"
            | some JsonValue.null => Except.error "TypeError: event data is null"
            | some (JsonValue.obj dataFields) =>
                match jsGet "id" dataFields with
                | some (JsonValue.str s) =>
                    if s == "" then Except.ok db
                    else
                      match deleteFromClerk s db with
                      | (Except.ok _, db2) => Except.ok db2
                      | (Except.error e, _) => Except.error e
                | some idv =>
                    if jsTruthy idv then
                      Except.error "model: non-string id rejected by the mutation argument validator"
                    else Except.ok db
                | none => Except.ok db
            | some _ => Except.ok db
          else Except.ok db
      | _ => Except.ok db
  | _ => Except.ok db

/-- The `/clerk-users-webhook` HTTP action (source lines 215-278).  Inputs:
the `CLERK_WEBHOOK_SECRET` environment value, the three `svix-*` headers
(`none` when absent), the request body, and the store.  An uncaught throw is
`Except.error` (surfaced by the Convex runtime as an HTTP 5xx, not a handler
response). -/
def clerkWebhook (secret svixId svixTimestamp svixSignature : Option String)
    (body : String) (db : Db) : Except String (HttpResponse × Db) :=
  match secret with
  | none => Except.ok ((500, "Clerk webhook secret not configured"), db)
  | some sec =>
      if sec == "" then Except.ok ((500, "Clerk webhook secret not configured"), db)
      else
        match svixId, svixTimestamp, svixSignature with
        | some i, some t, some g =>
            if i == "" || t == "" || g == "" then
              Except.ok ((400, "Missing svix headers"), db)
            else
              match verifySvixSignature sec i t g body with
              | none => Except.error "verification threw: atob InvalidCharacterError or importKey DataError"
              | some false => Except.ok ((400, "Invalid webhook signature"), db)
              | some true =>
                  match parseJson body with
                  | none => Except.error "JSON.parse: unexpected token"
                  | some v =>
                      match dispatchClerk v db with
                      | Except.error e => Except.error e
                      | Except.ok db2 => Except.ok ((200, jsonSuccessBody), db2)
        | _, _, _ => Except.ok ((400, "Missing svix headers"), db)

/-- `typeof x.customer === "string" ? x.customer : x.customer?.id` on the
event object, as an Except so that a truthy non-string id (which the Convex
argument validator would reject downstream) is an error.  Property access on
a non-null, non-object primitive yields `undefined`, not a throw. -/
def extractCustomerId : Option JsonValue → Except String (Option String)
  | some (JsonValue.str s) => Except.ok (some s)
  | none => Except.ok none
  | some JsonValue.null => Except.ok none
  | some (JsonValue.obj fields) =>
      match jsGet "id" fields with
      | none => Except.ok none
      | some (JsonValue.str s) => Except.ok (some s)
      | some idv =>
          if jsTruthy idv then
            Except.error "model: non-string customer id rejected by the argument validator"
          else Except.ok none
  | some _ => Except.ok none

/-- `subscription.id as string` and `subscription.status as string`: a string
passes through, `undefined` stays absent (only legal where the argument is
optional), anything else fails the Convex argument validator. -/
def requireString (what : String) : Option JsonValue → Except String (Option String)
  | none => Except.ok none
  | some (JsonValue.str s) => Except.ok (some s)
  | some _ => Except.error ("model: " ++ what ++ " rejected by the argument validator")

/-- The `switch (event.type)` dispatch of the `/stripe-webhook` handler
(source lines 313-361), given the event type and the `event.data.object`
fields. -/
def stripeHandleEvent (eventType : String) (object : List (String × JsonValue))
    (db : Db) : Except String Db :=
  if eventType == "checkout.session.completed" then
    match extractCustomerId (jsGet "customer" object) with
    | Except.error e => Except.error e
    | Except.ok none => Except.ok db
    | Except.ok (some customerId) =>
        if customerId == "" then Except.ok db
        else
          match upsertSubscription customerId none "active" none db with
          | (Except.ok _, db2) => Except.ok db2
          | (Except.error e, _) => Except.error e
  else if eventType == "customer.subscription.updated" then
    match extractCustomerId (jsGet "customer" object) with
    | Except.error e => Except.error e
    | Except.ok none => Except.ok db
    | Except.ok (some customerId) =>
        if customerId == "" then Except.ok db
        else
          match requireString "non-string subscription id" (jsGet "id" object) with
          | Except.error e => Except.error e
          | Except.ok subId =>
              match jsGet "status" object with
              | some (JsonValue.str status) =>
                  match upsertSubscription customerId subId status none db with
                  | (Except.ok _, db2) => Except.ok db2
                  | (Except.error e, _) => Except.error e
              | _ => Except.error "model: non-string status rejected by the argument validator"
  else if eventType == "subscription_schedule.canceled" then
    match extractCustomerId (jsGet "customer" object) with
    | Except.error e => Except.error e
    | Except.ok none => Except.ok db
    | Except.ok (some customerId) =>
        if customerId == "" then Except.ok db
        else
          match cancelSubscription customerId db with
          | (Except.ok _, db2) => Except.ok db2
          | (Except.error e, _) => Except.error e
  else Except.ok db

/- ===================== Claim-side definitions ===================== -/

/-- The claim wording for the secret: the base64 payload obtained by
STRIPPING the literal `whsec_` PREFIX (rather than replacing its first
occurrence anywhere). -/
def dropWhsec (s : String) : String :=
  if listStartsWith "whsec_".data s.data then String.mk (s.data.drop 6) else s

/-- Claim C1, spec side: some space-separated entry of the signature header,
split at its comma into a version tag and a candidate value, has a non-empty
candidate equal to the base64 HMAC-SHA-256 of `{id}.{timestamp}.{body}`
under the decoded key. -/
def svixClaimMatch (svixId svixTimestamp svixSignature body : String) (key : List Nat) : Prop :=
  ∃ entry ∈ jsSplit svixSignature ' ', ∃ candidate,
    (jsSplit entry ',').get? 1 = some candidate ∧ candidate ≠ "" ∧
    candidate = bufToBase64 (hmacSha256 key (svixId ++ "." ++ svixTimestamp ++ "." ++ body))

/-- Claim C2 exactly as stated: the header contains a `t=` field and a `v1=`
field, and the `v1` value equals the lowercase hex HMAC-SHA-256 of
`{timestamp}.{body}` keyed with the secret. -/
def stripeClaimStated (secret stripeSignature body : String) : Bool :=
  let parts := jsSplit stripeSignature ','
  match (parts.find? (fun p => jsStartsWith p "t=")).map (fun p => jsDropChars p 2),
        (parts.find? (fun p => jsStartsWith p "v1=")).map (fun p => jsDropChars p 3) with
  | some ts, some v1 =>
      v1 == bufToHex (hmacSha256 (utf8Encode secret) (ts ++ "." ++ body))
  | _, _ => false

/-- Claim C2 as amended: additionally the extracted timestamp must be
non-empty (JS truthiness of the `t=` value). -/
def stripeClaimAmended (secret stripeSignature body : String) : Bool :=
  let parts := jsSplit stripeSignature ','
  match (parts.find? (fun p => jsStartsWith p "t=")).map (fun p => jsDropChars p 2),
        (parts.find? (fun p => jsStartsWith p "v1=")).map (fun p => jsDropChars p 3) with
  | some ts, some v1 =>
      ts != "" && (v1 == bufToHex (hmacSha256 (utf8Encode secret) (ts ++ "." ++ body)))
  | _, _ => false

/-- Claim C8, spec side: first/last name joined with a single space, skipping
empty or absent parts, defaulting to the literal `"Unknown"` when both are
skipped. -/
def nameSpec (first last : Option String) : String :=
  let parts := ([first, last].filterMap id).filter (fun s => s != "")
  if parts.isEmpty then "Unknown" else joinSpace parts

/- ===================== Concrete instances for witnesses ===================== -/

/-- `bufToBase64 (hmacSha256 [] "i.t.b")`: the base64 HMAC the claim formula
yields at secret `whsec_`, whose stripped form decodes to the EMPTY key that
`importKey` rejects. -/
def sigEmptyKey : String := "lGc0Duc9bvoMP5LMN30LvgPh8DAOx9arq+/wUDvoryc="

/-- `bufToBase64 (hmacSha256 [107] "i.t.b")`: the expected svix signature
for secret `whsec_aw==` (the one-byte key `[107]`), id `i`, timestamp `t`,
body `b`. -/
def sigC1 : String := "9uKupBHanH8SaQ+s1+XuoasdFbtuTMnJ36vO++FPWeM="

/-- `bufToBase64 (hmacSha256 [107] "i.t.x")`: a valid svix signature over
the non-JSON body `x` under the key `[107]`. -/
def sigC7 : String := "TLePTX8OiwnM5GBKWzCwIoX828wbMPFUihvo8RThKh0="

/-- `bufToBase64 (hmacSha256 [107] ("i.t." ++ bodyDeleted))`. -/
def sigC10 : String := "Z/K7urhtKC1tO17tXM1Uq88NG3bffympaoHqanLZWVg="

/-- `bufToHex (hmacSha256 (utf8Encode "s") ".b")`: the hex digest the spec
formula yields for secret `s`, body `b` and an EMPTY `t=` timestamp. -/
def hexC2 : String := "c7a9ad70a1c321f5162b8ae647fdc7b145b92021498aa4e083db1b787f154ce8"

/-- `bufToHex (hmacSha256 (utf8Encode "s") "1.b")`: the hex digest for
secret `s`, timestamp `1`, body `b`. -/
def hexC2match : String := "8a24cdd4ca35ebc2922810a126f457252f7eaa83834bb009baafc362912addda"

/-- A `user.deleted` event body whose data object has no `id` field. -/
def bodyDeleted : String := "\x7b\"type\":\"user.deleted\",\"data\":\x7b\x7d\x7d"

def emptyDb : Db := ⟨[], [], 0⟩

/-- A store holding one subscription row with every optional field set. -/
def exSubDb : Db := ⟨[], [⟨0, 7, "cus_1", some "sub_1", "trialing", some "pro"⟩], 1⟩

/-- A concrete `user.created` payload. -/
def exUser : ClerkUserData :=
  ⟨"usr_1", some "Ada", some "Lovelace", some [⟨"ada@example.com"⟩], some "img"⟩

/-- A store holding one user row for `usr_1`. -/
def exUserDb : Db := ⟨[⟨3, "Old", none, none, "usr_1"⟩], [], 4⟩

/- ===================== Helper lemmas ===================== -/

theorem lorEqZero {a b : Nat} : a ||| b = 0 ↔ a = 0 ∧ b = 0 := by
  constructor
  · intro h
    have hbit : ∀ i, (Nat.testBit a i || Nat.testBit b i) = false := by
      intro i
      rw [← Nat.testBit_lor, h, Nat.zero_testBit]
    constructor
    · apply Nat.eq_of_testBit_eq
      intro i
      rw [Nat.zero_testBit]
      exact (Bool.or_eq_false_iff.mp (hbit i)).1
    · apply Nat.eq_of_testBit_eq
      intro i
      rw [Nat.zero_testBit]
      exact (Bool.or_eq_false_iff.mp (hbit i)).2
  · rintro ⟨rfl, rfl⟩
    rfl

theorem charToNat_inj {a b : Char} (h : a.toNat = b.toNat) : a = b := by
  rw [← Char.ofNat_toNat a, ← Char.ofNat_toNat b, h]

theorem xorOrFold_eq_zero (l : List (Char × Char)) (acc : Nat) :
    (l.foldl (fun r p => r ||| (p.1.toNat ^^^ p.2.toNat)) acc = 0) ↔
      (acc = 0 ∧ ∀ p ∈ l, p.1 = p.2) := by
  induction l generalizing acc with
  | nil => simp
  | cons hd tl ih =>
      simp only [List.foldl_cons, List.mem_cons]
      rw [ih]
      constructor
      · rintro ⟨h1, h2⟩
        obtain ⟨ha, hx⟩ := lorEqZero.mp h1
        refine ⟨ha, ?_⟩
        rintro p (rfl | hp)
        · exact charToNat_inj (Nat.xor_eq_zero.mp hx)
        · exact h2 p hp
      · rintro ⟨rfl, h2⟩
        refine ⟨?_, fun p hp => h2 p (Or.inr hp)⟩
        have : hd.1 = hd.2 := h2 hd (Or.inl rfl)
        rw [this]
        simp [Nat.xor_self]

theorem zip_pairs_eq {α : Type} (l1 l2 : List α) (h : l1.length = l2.length) :
    (∀ p ∈ l1.zip l2, p.1 = p.2) ↔ l1 = l2 := by
  induction l1 generalizing l2 with
  | nil =>
      cases l2 with
      | nil => simp
      | cons b bs => simp at h
  | cons a as ih =>
      cases l2 with
      | nil => simp at h
      | cons b bs =>
          simp only [List.length_cons, Nat.succ.injEq] at h
          simp only [List.zip_cons_cons, List.mem_cons, List.cons.injEq]
          constructor
          · intro hall
            exact ⟨hall (a, b) (Or.inl rfl), (ih bs h).mp (fun p hp => hall p (Or.inr hp))⟩
          · rintro ⟨rfl, rfl⟩
            rintro p (rfl | hp)
            · rfl
            · exact (ih _ h).mpr rfl p hp

theorem xorOrAccum_eq_zero_iff (a b : String) (h : a.data.length = b.data.length) :
    xorOrAccum a b = 0 ↔ a = b := by
  unfold xorOrAccum
  rw [xorOrFold_eq_zero]
  constructor
  · rintro ⟨-, h2⟩
    exact String.ext ((zip_pairs_eq a.data b.data h).mp h2)
  · rintro rfl
    exact ⟨rfl, (zip_pairs_eq a.data a.data rfl).mpr rfl⟩

theorem timingSafeEqual_iff_eq (a b : String) : timingSafeEqual a b = true ↔ a = b := by
  unfold timingSafeEqual
  by_cases h : a.data.length = b.data.length
  · rw [bne_eq_false_iff_eq.mpr h]
    simpa using xorOrAccum_eq_zero_iff a b h
  · rw [bne_iff_ne.mpr h]
    simp only [if_true]
    constructor
    · intro hfalse
      exact absurd hfalse (by simp)
    · rintro rfl
      exact absurd rfl h

/- ===================== Claim C5 ===================== -/

/-- C5: `timingSafeEqual` returns false whenever the lengths differ; for
equal lengths it accumulates the bitwise OR of the XORs of corresponding
character codes over the full string and returns true exactly when that
accumulator is zero; consequently equal-length inputs compare true if and
only if the strings are equal. -/
theorem timingSafeEqual_spec (a b : String) :
    (a.data.length ≠ b.data.length → timingSafeEqual a b = false) ∧
    (a.data.length = b.data.length → (timingSafeEqual a b = true ↔ xorOrAccum a b = 0)) ∧
    (timingSafeEqual a b = true ↔ a = b) := by
  refine ⟨?_, ?_, timingSafeEqual_iff_eq a b⟩
  · intro h
    unfold timingSafeEqual
    rw [bne_iff_ne.mpr h]
    simp
  · intro h
    unfold timingSafeEqual
    rw [bne_eq_false_iff_eq.mpr h]
    simp

/-- Witness for C5 at concrete inputs. -/
theorem timingSafeEqual_spec_witness :
    timingSafeEqual "ab" "abc" = false ∧
    (timingSafeEqual "ab" "ab" = true ↔ xorOrAccum "ab" "ab" = 0) ∧
    (timingSafeEqual "ab" "ba" = true ↔ "ab" = "ba") :=
  ⟨(timingSafeEqual_spec "ab" "abc").1 (by decide),
   (timingSafeEqual_spec "ab" "ab").2.1 (by decide),
   (timingSafeEqual_spec "ab" "ba").2.2⟩

/- ===================== Claim C2 ===================== -/

theorem sha256_ne_nil (msg : List Nat) : sha256 msg ≠ [] := by
  simp [sha256, shaDigest, word32Bytes]

theorem hmacSha256_ne_nil (key : List Nat) (message : String) :
    hmacSha256 key message ≠ [] := by
  unfold hmacSha256
  exact sha256_ne_nil _

theorem byteToHex_ne_nil (b : Nat) : byteToHex b ≠ [] := by
  unfold byteToHex
  split <;> simp

theorem bufToHex_ne_empty (l : List Nat) (h : l ≠ []) : bufToHex l ≠ "" := by
  cases l with
  | nil => exact absurd rfl h
  | cons b bs =>
      intro heq
      have hd := congrArg String.data heq
      simp only [bufToHex, List.foldr_cons] at hd
      exact byteToHex_ne_nil b (List.append_eq_nil.mp hd).1

theorem bufToHex_hmac_ne_empty (key : List Nat) (message : String) :
    bufToHex (hmacSha256 key message) ≠ "" :=
  bufToHex_ne_empty _ (hmacSha256_ne_nil key message)

theorem utf8Encode_ne_nil (s : String) (h : s ≠ "") : utf8Encode s ≠ [] := by
  rcases hs : s.data with - | ⟨c, cs⟩
  · exact absurd (String.ext (hs.trans rfl)) h
  · unfold utf8Encode
    rw [hs]
    simp only [List.foldr_cons]
    split
    · simp
    · split
      · simp
      · split <;> simp

section
set_option maxRecDepth 100000

/-- C2 as stated is violated when the `t=` field is present but EMPTY: the
falsy-timestamp guard fires before any crypto runs, so the code returns
false, while the stated property asks for a match of the `v1` value against
the digest of `.{body}` and is satisfied.  At secret `s`, body `b` and
header `t=,v1=<digest of ".b">` the code returns false while the stated
property holds. -/
theorem verifyStripeSignature_counterexample :
    verifyStripeSignature "s" ("t=,v1=" ++ hexC2) "b" = some false ∧
    stripeClaimStated "s" ("t=,v1=" ++ hexC2) "b" = true := by
  constructor
  · decide
  · decide

end

/-- C2 amended: for every NON-EMPTY secret (with an empty secret the code
throws a DataError in `importKey` once both fields pass the guard),
`verifyStripeSignature` returns, without throwing, true iff the
comma-separated header contains a field starting with `t=` whose remainder
is NON-EMPTY and a field starting with `v1=`, and the `v1` value equals the
lowercase hex HMAC-SHA-256 of `{timestamp}.{body}` keyed with the secret;
with either field absent (or the timestamp empty) it returns false. -/
theorem verifyStripeSignature_eq_amended (secret header body : String)
    (hsec : secret ≠ "") :
    verifyStripeSignature secret header body =
      some (stripeClaimAmended secret header body) := by
  obtain ⟨c, cs, hkey⟩ : ∃ c cs, utf8Encode secret = c :: cs := by
    rcases hu : utf8Encode secret with - | ⟨c, cs⟩
    · exact absurd hu (utf8Encode_ne_nil secret hsec)
    · exact ⟨c, cs, rfl⟩
  unfold verifyStripeSignature stripeClaimAmended
  cases h1 : (jsSplit header ',').find? (fun p => jsStartsWith p "t=") with
  | none =>
      cases h2 : (jsSplit header ',').find? (fun p => jsStartsWith p "v1=") with
      | none => simp [h1, h2]
      | some vfield => simp [h1, h2]
  | some tfield =>
      cases h2 : (jsSplit header ',').find? (fun p => jsStartsWith p "v1=") with
      | none => simp [h1, h2]
      | some vfield =>
          simp only [h1, h2, Option.map_some']
          by_cases hts : jsDropChars tfield 2 = ""
          · simp [hts]
          · by_cases hv1 : jsDropChars vfield 3 = ""
            · have hdg : bufToHex (hmacSha256 (utf8Encode secret)
                  (jsDropChars tfield 2 ++ "." ++ body)) ≠ "" :=
                bufToHex_hmac_ne_empty _ _
              have hne : (jsDropChars vfield 3 ==
                  bufToHex (hmacSha256 (utf8Encode secret)
                    (jsDropChars tfield 2 ++ "." ++ body))) = false :=
                beq_eq_false_iff_ne.mpr (by rw [hv1]; exact fun h => hdg h.symm)
              simp [hts, hv1, hne]
              exact fun h => hdg h.symm
            · have h3 : (jsDropChars tfield 2 == "") = false := beq_eq_false_iff_ne.mpr hts
              have h4 : (jsDropChars vfield 3 == "") = false := beq_eq_false_iff_ne.mpr hv1
              have h5 : (jsDropChars tfield 2 != "") = true := bne_iff_ne.mpr hts
              simp only [h3, h4, h5, Bool.false_or, Bool.true_and, Bool.false_eq_true,
                if_false]
              rw [hkey]
              dsimp only [subtleHmacSign]
              rw [Option.some.injEq, Bool.eq_iff_iff]
              simp only [timingSafeEqual_iff_eq, beq_iff_eq]
              exact eq_comm

section
set_option maxRecDepth 100000

/-- Witness for C2 at concrete inputs where the amended formula is true. -/
theorem verifyStripeSignature_eq_amended_witness :
    verifyStripeSignature "s" ("t=1,v1=" ++ hexC2match) "b" =
      some (stripeClaimAmended "s" ("t=1,v1=" ++ hexC2match) "b") ∧
    stripeClaimAmended "s" ("t=1,v1=" ++ hexC2match) "b" = true :=
  ⟨verifyStripeSignature_eq_amended "s" ("t=1,v1=" ++ hexC2match) "b" (by decide),
   by decide⟩

end

/- ===================== Claim C4 ===================== -/

/-- C4: with no subscription row matching `stripeCustomerId` and an empty
users table, `upsertSubscription` throws the `No user found ...` error, and
the store - in particular the subscriptions table - comes back unchanged. -/
theorem upsertSubscription_no_user_throws (stripeCustomerId : String)
    (stripeSubscriptionId : Option String) (status : String) (plan : Option String)
    (db : Db)
    (hUsers : db.users = [])
    (hNoRow : db.subs.find? (fun r => r.stripeCustomerId == stripeCustomerId) = none) :
    upsertSubscription stripeCustomerId stripeSubscriptionId status plan db =
      (Except.error ("No user found to link subscription for customer " ++ stripeCustomerId),
       db) := by
  unfold upsertSubscription
  rw [hNoRow, hUsers]

/-- Witness for C4: one concrete store with an empty users table. -/
theorem upsertSubscription_no_user_throws_witness :
    upsertSubscription "cus_9" none "active" none emptyDb =
      (Except.error "No user found to link subscription for customer cus_9", emptyDb) := by
  have h := upsertSubscription_no_user_throws "cus_9" none "active" none emptyDb
    (by decide) (by decide)
  simpa using h

/- ===================== Claim C9 ===================== -/

/-- C9: `deleteFromClerk` with an `externalId` matching no user row returns
normally (no thrown error) and leaves the store unchanged. -/
theorem deleteFromClerk_unknown_noop (clerkId : String) (db : Db)
    (h : db.users.filter (fun u => u.externalId == clerkId) = []) :
    deleteFromClerk clerkId db = (Except.ok (), db) := by
  unfold deleteFromClerk uniqueByExternalId
  rw [h]

/-- Witness for C9 at a concrete store that has a user with a DIFFERENT
external id. -/
theorem deleteFromClerk_unknown_noop_witness :
    deleteFromClerk "usr_other" exUserDb = (Except.ok (), exUserDb) :=
  deleteFromClerk_unknown_noop "usr_other" exUserDb (by decide)

/- ===================== Claim C3 ===================== -/

/-- C3 as stated is violated: on a `checkout.session.completed` delivery for
an existing row, the patch passes the absent optional arguments through, and
Convex `db.patch` REMOVES fields set to `undefined` - the stored
`stripeSubscriptionId` and `plan` are cleared, not left unchanged.  At the
concrete store `exSubDb` the row goes from
`(sub_1, trialing, pro)` to `(none, active, none)`. -/
theorem checkoutCompleted_counterexample :
    stripeHandleEvent "checkout.session.completed"
        [("customer", JsonValue.str "cus_1")] exSubDb =
      Except.ok ⟨[], [⟨0, 7, "cus_1", none, "active", none⟩], 1⟩ ∧
    exSubDb.subs.map (fun r => r.stripeSubscriptionId) = [some "sub_1"] ∧
    exSubDb.subs.map (fun r => r.plan) = [some "pro"] := by
  refine ⟨rfl, by decide, by decide⟩

/-- C3 amended: on a `checkout.session.completed` delivery whose extracted
customer id is a non-empty string matching an existing subscription row, the
handler patches that row, setting `status` to `"active"` and REMOVING its
`stripeSubscriptionId` and `plan` fields, while `userId` and
`stripeCustomerId` (and every other row, and the users table) are left
unchanged. -/
theorem checkoutCompleted_patches_row (object : List (String × JsonValue)) (db : Db)
    (cid : String) (row : SubRow)
    (hCid : extractCustomerId (jsGet "customer" object) = Except.ok (some cid))
    (hNe : cid ≠ "")
    (hRow : db.subs.find? (fun r => r.stripeCustomerId == cid) = some row) :
    stripeHandleEvent "checkout.session.completed" object db =
      Except.ok { db with subs := db.subs.map (fun r =>
        if r.id == row.id then
          { r with status := "active", stripeSubscriptionId := none, plan := none }
        else r) } := by
  unfold stripeHandleEvent
  rw [if_pos (by decide), hCid]
  dsimp only
  rw [if_neg (by simp [hNe])]
  unfold upsertSubscription
  rw [hRow]

/-- Witness for C3 at the concrete store `exSubDb`. -/
theorem checkoutCompleted_patches_row_witness :
    stripeHandleEvent "checkout.session.completed"
        [("customer", JsonValue.str "cus_1")] exSubDb =
      Except.ok { exSubDb with subs := exSubDb.subs.map (fun r =>
        if r.id == 0 then
          { r with status := "active", stripeSubscriptionId := none, plan := none }
        else r) } :=
  checkoutCompleted_patches_row [("customer", JsonValue.str "cus_1")] exSubDb "cus_1"
    ⟨0, 7, "cus_1", some "sub_1", "trialing", some "pro"⟩ rfl (by decide) rfl

/- ===================== Claim C8 ===================== -/

theorem joinPair_ne_empty (a b : String) : a ++ " " ++ b ≠ "" := by
  intro h
  have hd := congrArg String.data h
  simp only [String.data_append] at hd
  rcases List.append_eq_nil.mp hd with ⟨h1, -⟩
  rcases List.append_eq_nil.mp h1 with ⟨-, h3⟩
  exact absurd h3 (by decide)

theorem computeName_eq_nameSpec (f l : Option String) :
    computeName f l = nameSpec f l := by
  rcases f with _ | fs <;> rcases l with _ | ls
  · rfl
  · by_cases hls : ls = ""
    · simp [computeName, nameSpec, jsFilterTruthy, joinSpace, hls]
    · simp [computeName, nameSpec, jsFilterTruthy, joinSpace, hls]
  · by_cases hfs : fs = ""
    · simp [computeName, nameSpec, jsFilterTruthy, joinSpace, hfs]
    · simp [computeName, nameSpec, jsFilterTruthy, joinSpace, hfs]
  · by_cases hfs : fs = "" <;> by_cases hls : ls = ""
    · simp [computeName, nameSpec, jsFilterTruthy, joinSpace, hfs, hls]
    · simp [computeName, nameSpec, jsFilterTruthy, joinSpace, hfs, hls]
    · simp [computeName, nameSpec, jsFilterTruthy, joinSpace, hfs, hls]
    · simp [computeName, nameSpec, jsFilterTruthy, joinSpace, hfs, hls,
        joinPair_ne_empty fs ls]

theorem unique_some_mem (rows : List UserRow) (eid : String) (u : UserRow)
    (h : uniqueByExternalId rows eid = Except.ok (some u)) :
    u ∈ rows ∧ u.externalId = eid := by
  unfold uniqueByExternalId at h
  rcases hf : rows.filter (fun v => v.externalId == eid) with - | ⟨x, - | ⟨y, t⟩⟩ <;>
    rw [hf] at h
  · simp at h
  · simp only [Except.ok.injEq, Option.some.injEq] at h
    obtain rfl : u = x := h.symm
    have hx : u ∈ rows.filter (fun v => v.externalId == eid) := by
      rw [hf]
      exact List.mem_singleton_self u
    have := List.mem_filter.mp hx
    exact ⟨this.1, by simpa using this.2⟩
  · simp at h

/-- C8: the user name stored by `upsertFromClerk` is the first/last name
fields joined with a single space, with empty or absent fields skipped, and
is the literal `"Unknown"` exactly when both are empty or absent: the code
computation `computeName` coincides with the spec description `nameSpec`,
and every successful upsert leaves a row for the payload external id bearing
that name. -/
theorem upsertFromClerk_name_spec :
    (∀ f l, computeName f l = nameSpec f l) ∧
    (∀ d db i db2, upsertFromClerk d db = (Except.ok i, db2) →
      ∃ u, u ∈ db2.users ∧ u.externalId = d.id ∧
        u.name = nameSpec d.first_name d.last_name) := by
  refine ⟨computeName_eq_nameSpec, ?_⟩
  intro d db i db2 h
  unfold upsertFromClerk at h
  cases hu : uniqueByExternalId db.users d.id with
  | error e =>
      rw [hu] at h
      simp at h
  | ok o =>
      cases o with
      | some existing =>
          rw [hu] at h
          dsimp only at h
          cases h
          obtain ⟨hmem, hext⟩ := unique_some_mem db.users d.id existing hu
          refine ⟨{ existing with name := computeName d.first_name d.last_name, email := emailOf d, imageUrl := d.image_url },
            ?_, hext, computeName_eq_nameSpec d.first_name d.last_name⟩
          apply List.mem_map.mpr
          exact ⟨existing, hmem, by simp⟩
      | none =>
          rw [hu] at h
          dsimp only at h
          cases h
          refine ⟨⟨db.nextId, computeName d.first_name d.last_name,
            emailOf d, d.image_url, d.id⟩, ?_, rfl, ?_⟩
          · exact List.mem_append_right _ (List.mem_singleton_self _)
          · exact computeName_eq_nameSpec d.first_name d.last_name

/-- Witness for C8 at a concrete payload and the empty store. -/
theorem upsertFromClerk_name_spec_witness :
    computeName (some "Ada") (some "Lovelace") = nameSpec (some "Ada") (some "Lovelace") ∧
    ∃ u, u ∈ (⟨[⟨0, "Ada Lovelace", some "ada@example.com", some "img", "usr_1"⟩],
        [], 1⟩ : Db).users ∧
      u.externalId = exUser.id ∧ u.name = nameSpec exUser.first_name exUser.last_name :=
  ⟨upsertFromClerk_name_spec.1 (some "Ada") (some "Lovelace"),
   upsertFromClerk_name_spec.2 exUser emptyDb 0 _ rfl⟩

/- ===================== Claim C6 ===================== -/

theorem patchKeepsExternalId (nm : String) (em im : Option String) (tid : Nat) (u : UserRow) :
    (if u.id == tid then { u with name := nm, email := em, imageUrl := im } else u).externalId
      = u.externalId := by
  by_cases hid : (u.id == tid) = true <;> simp [hid]

theorem filterPatch (nm : String) (em im : Option String) (tid : Nat)
    (rows : List UserRow) (eid : String) :
    (rows.map (fun u => if u.id == tid then { u with name := nm, email := em, imageUrl := im } else u)).filter
        (fun u => u.externalId == eid) =
      (rows.filter (fun u => u.externalId == eid)).map
        (fun u => if u.id == tid then { u with name := nm, email := em, imageUrl := im } else u) := by
  rw [List.filter_map]
  congr 1
  apply List.filter_congr
  intro u hu
  simp only [Function.comp_apply, patchKeepsExternalId]

/-- After one successful `upsertFromClerk`, exactly one user row carries the
payload external id, and every row carrying it has the payload-computed
name, email and image fields. -/
theorem upsertFromClerk_establishes (d : ClerkUserData) (db : Db)
    (h : (db.users.filter (fun u => u.externalId == d.id)).length ≤ 1) :
    ∃ i db2, upsertFromClerk d db = (Except.ok i, db2) ∧
      (db2.users.filter (fun u => u.externalId == d.id)).length = 1 ∧
      ∀ u ∈ db2.users, u.externalId = d.id →
        u.name = computeName d.first_name d.last_name ∧
        u.email = emailOf d ∧ u.imageUrl = d.image_url := by
  rcases hf : db.users.filter (fun u => u.externalId == d.id) with - | ⟨x, - | ⟨y, t⟩⟩
  · -- no row for this external id: the insert path
    refine ⟨db.nextId, { db with users := db.users ++ [(⟨db.nextId, computeName d.first_name d.last_name, emailOf d, d.image_url, d.id⟩ : UserRow)], nextId := db.nextId + 1 }, ?_, ?_, ?_⟩
    · unfold upsertFromClerk uniqueByExternalId
      rw [hf]
    · rw [List.filter_append, hf]
      simp
    · intro u hu hext
      rcases List.mem_append.mp hu with hin | hnew
      · exfalso
        have : u ∈ db.users.filter (fun v => v.externalId == d.id) :=
          List.mem_filter.mpr ⟨hin, by simp [hext]⟩
        rw [hf] at this
        exact absurd this (List.not_mem_nil u)
      · have : u = ⟨db.nextId, computeName d.first_name d.last_name, emailOf d, d.image_url, d.id⟩ := List.mem_singleton.mp hnew
        subst this
        exact ⟨rfl, rfl, rfl⟩
  · -- exactly one row: the patch path
    refine ⟨x.id, { db with users := db.users.map (fun u : UserRow => if u.id == x.id then { u with name := computeName d.first_name d.last_name, email := emailOf d, imageUrl := d.image_url } else u) }, ?_, ?_, ?_⟩
    · unfold upsertFromClerk uniqueByExternalId
      rw [hf]
    · rw [filterPatch, hf]
      simp
    · intro u hu hext
      rcases List.mem_map.mp hu with ⟨v, hvmem, hveq⟩
      have hvext : v.externalId = d.id := by
        rw [← hext, ← hveq]
        exact (patchKeepsExternalId _ _ _ _ v).symm
      have hvfil : v ∈ db.users.filter (fun w => w.externalId == d.id) :=
        List.mem_filter.mpr ⟨hvmem, by simp [hvext]⟩
      rw [hf] at hvfil
      have hvx : v = x := List.mem_singleton.mp hvfil
      subst hvx
      rw [← hveq]
      simp
  · -- two or more rows would contradict the uniqueness hypothesis
    exfalso
    rw [hf] at h
    simp at h

/-- C6: delivering the same `user.created` payload twice (starting from a
store satisfying the at-most-one-row-per-external-id invariant) leaves
exactly one user row for that external id, whose name, email and image
fields are the ones computed from the (second) delivery payload. -/
theorem upsertFromClerk_idempotent (d : ClerkUserData) (db : Db)
    (h : (db.users.filter (fun u => u.externalId == d.id)).length ≤ 1) :
    ∃ i1 db1 i2 db2,
      upsertFromClerk d db = (Except.ok i1, db1) ∧
      upsertFromClerk d db1 = (Except.ok i2, db2) ∧
      (db2.users.filter (fun u => u.externalId == d.id)).length = 1 ∧
      ∀ u ∈ db2.users, u.externalId = d.id →
        u.name = computeName d.first_name d.last_name ∧
        u.email = emailOf d ∧ u.imageUrl = d.image_url := by
  obtain ⟨i1, db1, h1, hcount1, -⟩ := upsertFromClerk_establishes d db h
  obtain ⟨i2, db2, h2, hcount2, hfields⟩ :=
    upsertFromClerk_establishes d db1 (by rw [hcount1])
  exact ⟨i1, db1, i2, db2, h1, h2, hcount2, hfields⟩

/-- Witness for C6: the same payload delivered twice into a store already
holding one row for `usr_1`. -/
theorem upsertFromClerk_idempotent_witness :
    (exUserDb.users.filter (fun u => u.externalId == exUser.id)).length ≤ 1 ∧
    ∃ i1 db1 i2 db2,
      upsertFromClerk exUser exUserDb = (Except.ok i1, db1) ∧
      upsertFromClerk exUser db1 = (Except.ok i2, db2) ∧
      (db2.users.filter (fun u => u.externalId == exUser.id)).length = 1 ∧
      ∀ u ∈ db2.users, u.externalId = exUser.id →
        u.name = computeName exUser.first_name exUser.last_name ∧
        u.email = emailOf exUser ∧ u.imageUrl = exUser.image_url :=
  ⟨by decide, upsertFromClerk_idempotent exUser exUserDb (by decide)⟩

/- ===================== Claim C1 ===================== -/

theorem stringMkData (s : String) : String.mk s.data = s := by
  cases s
  rfl

theorem listStartsWith_mem (pat l : List Char) (h : listStartsWith pat l = true) :
    ∀ c ∈ pat, c ∈ l := by
  induction pat generalizing l with
  | nil => intro c hc; exact absurd hc (List.not_mem_nil c)
  | cons p ps ih =>
      cases l with
      | nil => exact absurd h (by simp [listStartsWith])
      | cons a as =>
          simp only [listStartsWith, Bool.and_eq_true, beq_iff_eq] at h
          obtain ⟨rfl, hrest⟩ := h
          intro c hc
          rcases List.mem_cons.mp hc with rfl | hcs
          · exact List.mem_cons_self c as
          · exact List.mem_cons_of_mem _ (ih as hrest c hcs)

theorem replaceFirst_no_occurrence (pat rep : List Char) (c : Char) (hc : c ∈ pat)
    (l : List Char) (hl : c ∉ l) : replaceFirstChars pat rep l = l := by
  induction l with
  | nil => rfl
  | cons a as ih =>
      have hns : listStartsWith pat (a :: as) = false := by
        cases hs : listStartsWith pat (a :: as) with
        | false => rfl
        | true => exact absurd (listStartsWith_mem pat _ hs c hc) hl
      unfold replaceFirstChars
      rw [hns]
      simp only [Bool.false_eq_true, if_false, List.cons.injEq, true_and]
      exact ih (fun hmem => hl (List.mem_cons_of_mem a hmem))

theorem replaceFirst_startsWith (rep l : List Char)
    (h : listStartsWith "whsec_".data l = true) :
    replaceFirstChars "whsec_".data rep l = rep ++ l.drop 6 := by
  cases l with
  | nil => exact absurd h (by decide)
  | cons a as =>
      unfold replaceFirstChars
      rw [h]
      simp

theorem mem_dropTrailingEq {c : Char} (hc : c ≠ '=') {l : List Char} (h : c ∈ l) :
    c ∈ dropTrailingEq l := by
  have hrev : c ∈ l.reverse := List.mem_reverse.mpr h
  unfold dropTrailingEq
  split
  · next rest heq =>
      rw [heq] at hrev
      rcases List.mem_cons.mp hrev with h1 | hrev2
      · exact absurd h1 hc
      · rcases List.mem_cons.mp hrev2 with h2 | h3
        · exact absurd h2 hc
        · exact List.mem_reverse.mpr (List.mem_reverse.mp (List.mem_reverse.mpr h3))
  · next rest heq =>
      rw [heq] at hrev
      rcases List.mem_cons.mp hrev with h1 | h2
      · exact absurd h1 hc
      · exact List.mem_reverse.mpr (List.mem_reverse.mp (List.mem_reverse.mpr h2))
  · exact h

theorem base64Decode_underscore_none (s : String) (hmem : '_' ∈ s.data) :
    base64Decode s = none := by
  have h0 : '_' ∈ b64Filtered s := List.mem_filter.mpr ⟨hmem, by decide⟩
  have h1 : '_' ∈ b64Stripped s := by
    unfold b64Stripped
    split
    · exact mem_dropTrailingEq (by decide) h0
    · exact h0
  have h2 : ((b64Stripped s).any (fun c => (b64Index c).isNone)) = true :=
    List.any_eq_true.mpr ⟨'_', h1, by decide⟩
  unfold base64Decode
  rw [h2]
  split <;> rfl

theorem jsReplaceFirst_eq_dropWhsec (secret : String) (key : List Nat)
    (h : base64Decode (dropWhsec secret) = some key) :
    jsReplaceFirst secret "whsec_" "" = dropWhsec secret := by
  unfold jsReplaceFirst dropWhsec
  by_cases hs : listStartsWith "whsec_".data secret.data = true
  · rw [if_pos hs, replaceFirst_startsWith _ _ hs]
    rfl
  · rw [if_neg hs]
    unfold dropWhsec at h
    rw [if_neg hs] at h
    have hnou : '_' ∉ secret.data := by
      intro hmem
      rw [base64Decode_underscore_none secret hmem] at h
      exact Option.noConfusion h
    rw [replaceFirst_no_occurrence _ _ '_' (by decide) _ hnou]

section
set_option maxRecDepth 100000

/-- C1 as stated is violated at a secret whose stripped form decodes to the
EMPTY byte string: WebCrypto `importKey` throws a `DataError` on a
zero-length HMAC key, so at secret `whsec_` the program throws instead of
returning true, even though the header carries exactly the base64
HMAC-SHA-256 of `i.t.b` under the empty key and the stated property is
satisfied. -/
theorem verifySvixSignature_counterexample :
    base64Decode (dropWhsec "whsec_") = some [] ∧
    svixClaimMatch "i" "t" ("v1," ++ sigEmptyKey) "b" [] ∧
    verifySvixSignature "whsec_" "i" "t" ("v1," ++ sigEmptyKey) "b" = none :=
  ⟨by decide,
   ⟨"v1," ++ sigEmptyKey, by decide, sigEmptyKey, by decide, by decide, by decide⟩,
   by decide⟩

end

/-- C1 amended: provided the `whsec_`-stripped secret base64-decodes to a
NON-EMPTY key (with zero decoded bytes WebCrypto `importKey` throws a
`DataError` instead of returning a boolean), `verifySvixSignature` returns
true if and only if some space-separated entry of the signature header,
split at its comma into a version tag and a candidate, has a non-empty
candidate equal to the base64 HMAC-SHA-256 of `{id}.{timestamp}.{body}`
under that key.  (Decodability also forces `replace("whsec_", "")` and
prefix-stripping to coincide: a secret containing `whsec_` beyond position
0 keeps a `_`, which `atob` rejects.) -/
theorem verifySvixSignature_iff (secret svixId svixTimestamp svixSignature body : String)
    (key : List Nat) (h : base64Decode (dropWhsec secret) = some key) (hk : key ≠ []) :
    verifySvixSignature secret svixId svixTimestamp svixSignature body = some true ↔
      svixClaimMatch svixId svixTimestamp svixSignature body key := by
  obtain ⟨c, cs, rfl⟩ : ∃ c cs, key = c :: cs := by
    rcases key with - | ⟨c, cs⟩
    · exact absurd rfl hk
    · exact ⟨c, cs, rfl⟩
  unfold verifySvixSignature
  rw [jsReplaceFirst_eq_dropWhsec secret (c :: cs) h, h]
  dsimp only [subtleHmacSign]
  rw [Option.some.injEq, List.any_eq_true]
  unfold svixClaimMatch
  constructor
  · rintro ⟨entry, hmem, hpred⟩
    cases hg : (jsSplit entry ',').get? 1 with
    | none =>
        rw [hg] at hpred
        exact absurd hpred (by simp)
    | some sv =>
        rw [hg] at hpred
        simp only [Bool.and_eq_true, bne_iff_ne, ne_eq] at hpred
        obtain ⟨hne, hts⟩ := hpred
        exact ⟨entry, hmem, sv, hg, hne, ((timingSafeEqual_iff_eq _ _).mp hts).symm⟩
  · rintro ⟨entry, hmem, sv, hg, hne, heq⟩
    refine ⟨entry, hmem, ?_⟩
    rw [hg]
    simp only [Bool.and_eq_true, bne_iff_ne, ne_eq]
    exact ⟨hne, (timingSafeEqual_iff_eq _ _).mpr heq.symm⟩

section
set_option maxRecDepth 100000

/-- Witness for C1: secret `whsec_aw==` (the one-byte key `[107]`), one
matching `v1,` entry. -/
theorem verifySvixSignature_iff_witness :
    base64Decode (dropWhsec "whsec_aw==") = some [107] ∧
    ([107] : List Nat) ≠ [] ∧
    (verifySvixSignature "whsec_aw==" "i" "t" ("v1," ++ sigC1) "b" = some true ↔
      svixClaimMatch "i" "t" ("v1," ++ sigC1) "b" [107]) :=
  ⟨by decide, by decide,
   verifySvixSignature_iff "whsec_aw==" "i" "t" ("v1," ++ sigC1) "b" [107]
     (by decide) (by decide)⟩

end

/- ===================== Claim C7 ===================== -/

section
set_option maxRecDepth 100000

/-- C7 as stated is violated by a correctly signed request whose body is not
JSON: `JSON.parse` throws after verification succeeds, so the endpoint does
not respond 200 (the Convex runtime surfaces the uncaught error as a 5xx).
Concretely: secret `whsec_aw==` (key `[107]`), headers `i`/`t`, a signature header carrying
the correct HMAC for body `x`, and body `x`. -/
theorem clerkWebhook_counterexample :
    verifySvixSignature "whsec_aw==" "i" "t" ("v1," ++ sigC7) "x" = some true ∧
    clerkWebhook (some "whsec_aw==") (some "i") (some "t") (some ("v1," ++ sigC7)) "x" emptyDb =
      Except.error "JSON.parse: unexpected token" := by
  constructor
  · decide
  · rfl

end

/-- C7 amended: the endpoint responds 500 when the shared secret is not
configured, 400 (`Missing svix headers`) when the secret is configured and a
`svix-*` header is absent, 400 (`Invalid webhook signature`) when the
request reaches verification and it returns false, and 200 with body
`{"success":true}` on every successfully verified request whose body parses
as JSON and whose dispatched handling completes without a thrown error -
including events whose type is outside the recognized set. -/
theorem clerkWebhook_responses :
    (∀ svixId svixTimestamp svixSignature body db,
        clerkWebhook none svixId svixTimestamp svixSignature body db =
          Except.ok ((500, "Clerk webhook secret not configured"), db)) ∧
    (∀ sec svixId svixTimestamp svixSignature body db, sec ≠ "" →
        (svixId = none ∨ svixTimestamp = none ∨ svixSignature = none) →
        clerkWebhook (some sec) svixId svixTimestamp svixSignature body db =
          Except.ok ((400, "Missing svix headers"), db)) ∧
    (∀ sec i t g body db, sec ≠ "" → i ≠ "" → t ≠ "" → g ≠ "" →
        verifySvixSignature sec i t g body = some false →
        clerkWebhook (some sec) (some i) (some t) (some g) body db =
          Except.ok ((400, "Invalid webhook signature"), db)) ∧
    (∀ sec i t g body db v db2, sec ≠ "" → i ≠ "" → t ≠ "" → g ≠ "" →
        verifySvixSignature sec i t g body = some true →
        parseJson body = some v →
        dispatchClerk v db = Except.ok db2 →
        clerkWebhook (some sec) (some i) (some t) (some g) body db =
          Except.ok ((200, jsonSuccessBody), db2)) := by
  refine ⟨?_, ?_, ?_, ?_⟩
  · intro svixId svixTimestamp svixSignature body db
    rfl
  · intro sec svixId svixTimestamp svixSignature body db hsec hmiss
    unfold clerkWebhook
    dsimp only
    rw [if_neg (by simp [hsec])]
    cases svixId with
    | none => rfl
    | some iv =>
        cases svixTimestamp with
        | none => rfl
        | some tv =>
            cases svixSignature with
            | none => rfl
            | some gv =>
                rcases hmiss with h | h | h <;> exact absurd h (by simp)
  · intro sec i t g body db hsec hi ht hg hv
    unfold clerkWebhook
    dsimp only
    rw [if_neg (by simp [hsec]), if_neg (by simp [hi, ht, hg]), hv]
  · intro sec i t g body db v db2 hsec hi ht hg hv hp hdisp
    unfold clerkWebhook
    dsimp only
    rw [if_neg (by simp [hsec]), if_neg (by simp [hi, ht, hg]), hv]
    dsimp only
    rw [hp]
    dsimp only
    rw [hdisp]

section
set_option maxRecDepth 100000

/-- Witness for C7: one concrete request per response arm. -/
theorem clerkWebhook_responses_witness :
    clerkWebhook none (some "i") (some "t") (some "g") "x" emptyDb =
      Except.ok ((500, "Clerk webhook secret not configured"), emptyDb) ∧
    clerkWebhook (some "whsec_aw==") none (some "t") (some "g") "x" emptyDb =
      Except.ok ((400, "Missing svix headers"), emptyDb) ∧
    clerkWebhook (some "whsec_aw==") (some "i") (some "t") (some "v1,AAAA") "x" emptyDb =
      Except.ok ((400, "Invalid webhook signature"), emptyDb) ∧
    clerkWebhook (some "whsec_aw==") (some "i") (some "t") (some ("v1," ++ sigC10))
        bodyDeleted emptyDb =
      Except.ok ((200, jsonSuccessBody), emptyDb) :=
  ⟨clerkWebhook_responses.1 (some "i") (some "t") (some "g") "x" emptyDb,
   clerkWebhook_responses.2.1 "whsec_aw==" none (some "t") (some "g") "x" emptyDb
     (by decide) (Or.inl rfl),
   clerkWebhook_responses.2.2.1 "whsec_aw==" "i" "t" "v1,AAAA" "x" emptyDb
     (by decide) (by decide) (by decide) (by decide) (by decide),
   clerkWebhook_responses.2.2.2 "whsec_aw==" "i" "t" ("v1," ++ sigC10) bodyDeleted emptyDb
     (JsonValue.obj [("type", JsonValue.str "user.deleted"), ("data", JsonValue.obj [])])
     emptyDb (by decide) (by decide) (by decide) (by decide) (by decide) rfl rfl⟩

end

/- ===================== Claim C10 ===================== -/

/-- C10: a correctly verified `user.deleted` delivery whose data object has
no `id` field runs no mutation (the store is returned unchanged) and still
responds 200 with body `{"success":true}`. -/
theorem userDeleted_missing_id (sec i t g body : String) (db : Db)
    (fields dataFields : List (String × JsonValue))
    (hsec : sec ≠ "") (hi : i ≠ "") (ht : t ≠ "") (hg : g ≠ "")
    (hv : verifySvixSignature sec i t g body = some true)
    (hp : parseJson body = some (JsonValue.obj fields))
    (hty : jsGet "type" fields = some (JsonValue.str "user.deleted"))
    (hdata : jsGet "data" fields = some (JsonValue.obj dataFields))
    (hid : jsGet "id" dataFields = none) :
    clerkWebhook (some sec) (some i) (some t) (some g) body db =
      Except.ok ((200, jsonSuccessBody), db) := by
  have hdisp : dispatchClerk (JsonValue.obj fields) db = Except.ok db := by
    unfold dispatchClerk
    dsimp only
    rw [hty]
    dsimp only
    rw [if_neg (by decide), if_pos (by decide), hdata]
    dsimp only
    rw [hid]
  unfold clerkWebhook
  dsimp only
  rw [if_neg (by simp [hsec]), if_neg (by simp [hi, ht, hg]), hv]
  dsimp only
  rw [hp]
  dsimp only
  rw [hdisp]

section
set_option maxRecDepth 100000

/-- Witness for C10: a fully concrete verified `user.deleted` request with
an empty data object. -/
theorem userDeleted_missing_id_witness :
    clerkWebhook (some "whsec_aw==") (some "i") (some "t") (some ("v1," ++ sigC10))
        bodyDeleted emptyDb =
      Except.ok ((200, jsonSuccessBody), emptyDb) :=
  userDeleted_missing_id "whsec_aw==" "i" "t" ("v1," ++ sigC10) bodyDeleted emptyDb
    [("type", JsonValue.str "user.deleted"), ("data", JsonValue.obj [])] []
    (by decide) (by decide) (by decide) (by decide) (by decide) rfl rfl rfl rfl

end
